import Mathlib

/-!
Verification of the price-oracle aggregation service.

The development shallowly embeds the Rust sources of the repository:
`src/oracle-service/src/{aggregator,cache,manager,types}.rs` and
`src/oracle-service/src/clients/{pyth,switchboard}.rs`.

Modelling conventions:
* Rust `i64`/`i32` fields become `Int`, `u64`/`u32` fields become `Nat`.
  Where the Rust code can wrap (release-profile two-complement arithmetic or
  `as` casts) the wrap is modelled explicitly (`wrapI64`, `u64AsI64`,
  `i64AsU64`).
* The aggregator's `f64` arithmetic is idealized over `ℚ` (exact rational
  arithmetic); the float literals `0.5`, `0.3`, `0.2`, `0.6745`, `2.5` become
  the corresponding rationals.  The `as i64` / `as u64` casts applied to `f64`
  results are modelled as truncation toward zero with saturation, which is
  the Rust semantics of a float-to-integer `as` cast.
* The `f64::sqrt` inside `calculate_confidence` is not exactly representable
  in `ℚ`; it is replaced by the rational stand-in `sqrtQ`.  No theorem below
  constrains the aggregated `confidence` output field, so no verdict depends
  on this stand-in.
* Fallible Rust functions returning `anyhow::Result` become `Except String`.
* Redis side effects of the cache are embedded as an explicit command list
  (`RedisEffect`); the serialized JSON payload is represented by the
  `PriceData` value it serializes.
-/

namespace Oracle

/-- PriceSource enumeration from `types.rs`. -/
inductive PriceSource where
  | pyth
  | switchboard
  | aggregated
  | internal
deriving DecidableEq, Repr

/-- PriceData structure from `types.rs`: price `i64`, confidence `u64`,
expo `i32`, timestamp `i64`, source tag and symbol string. -/
structure PriceData where
  price : Int
  confidence : Nat
  expo : Int
  timestamp : Int
  source : PriceSource
  symbol : String
deriving DecidableEq, Repr

/-- Truncation of a rational toward zero, the rounding used by a Rust
float-to-integer `as` cast. -/
def ratTrunc (q : ℚ) : Int := if 0 ≤ q then ⌊q⌋ else -⌊-q⌋

/-- Model of the Rust cast `as i64` applied to an `f64` value: truncate
toward zero and saturate at the `i64` bounds. -/
def f64AsI64 (q : ℚ) : Int :=
  if ratTrunc q < -(2 ^ 63) then -(2 ^ 63)
  else if 2 ^ 63 - 1 < ratTrunc q then 2 ^ 63 - 1
  else ratTrunc q

/-- Model of the Rust cast `as u64` applied to an `f64` value: truncate
toward zero and saturate into `[0, 2^64)`. -/
def f64AsU64 (q : ℚ) : Nat :=
  if ratTrunc q < 0 then 0
  else if 2 ^ 64 - 1 < ratTrunc q then 2 ^ 64 - 1
  else (ratTrunc q).toNat

/-- Rounding half away from zero, the semantics of Rust `f64::round`; used
only to state spec-side claims, never by the embedded code. -/
def ratRound (q : ℚ) : Int :=
  if 0 ≤ q then ⌊q + 1 / 2⌋ else -⌊-q + 1 / 2⌋

/-- Rational stand-in for `f64::sqrt` (see the module docstring): a floor
square root computed on the numerator scaled by the denominator. -/
def sqrtQ (q : ℚ) : ℚ := (Nat.sqrt (q.num.toNat * q.den) : ℚ) / (q.den : ℚ)

/-- Power `10^e` for a signed exponent, as `10_f64.powi(e)` computes it. -/
def pow10 (e : Int) : ℚ :=
  if 0 ≤ e then (10 : ℚ) ^ e.toNat else ((10 : ℚ) ^ (-e).toNat)⁻¹

/-- Normalization `price as f64 / 10_f64.powi(-expo)` from
`PriceAggregator::normalize_price` in `aggregator.rs`. -/
def normalize_price (p : PriceData) : ℚ := (p.price : ℚ) / pow10 (-p.expo)

/-- Median computation from `PriceAggregator::calculate_median`: sort, then
take the middle element, or the mean of the two middle elements for even
length, or `0` for the empty list. -/
def calculate_median (values : List ℚ) : ℚ :=
  let s := List.insertionSort (fun a b : ℚ => a ≤ b) values
  let len := s.length
  if len = 0 then 0
  else if len % 2 = 0 then (s.getD (len / 2 - 1) 0 + s.getD (len / 2) 0) / 2
  else s.getD (len / 2) 0

/-- Absolute value on `ℚ` written as an explicit conditional (the Rust code
calls `f64::abs`); equal to Mathlib `|·|` by `ratAbs_eq_abs` below. -/
def ratAbs (q : ℚ) : ℚ := if 0 ≤ q then q else -q

/-- Modified z-score of one value given the median and the MAD, from the
loop body of `PriceAggregator::filter_outliers` (`0.6745` is `6745/10000`). -/
def modifiedZScore (median mad v : ℚ) : ℚ :=
  if 0 < mad then (6745 / 10000 : ℚ) * ratAbs (v - median) / mad else 0

/-- Loop of `PriceAggregator::filter_outliers`: walk the normalized prices
together with the original readings and keep a reading when its modified
z-score is at most `2.5`. -/
def filterLoop (median mad : ℚ) : List ℚ → List PriceData → List PriceData
  | [], _ => []
  | _ :: _, [] => []
  | v :: vs, d :: ds =>
    if modifiedZScore median mad v ≤ (5 / 2 : ℚ) then
      d :: filterLoop median mad vs ds
    else
      filterLoop median mad vs ds

/-- PriceAggregator::filter_outliers from `aggregator.rs`: with at most two
data points return all readings; otherwise drop readings whose modified
z-score against the median/MAD exceeds `2.5`, failing when all are dropped. -/
def filter_outliers (prices : List ℚ) (original_data : List PriceData) :
    Except String (List PriceData) :=
  if prices.length ≤ 2 then .ok original_data
  else
    let median := calculate_median prices
    let deviations := prices.map (fun p => ratAbs (p - median))
    let mad := calculate_median deviations
    let filtered := filterLoop median mad prices original_data
    if filtered = [] then .error "All prices were filtered as outliers"
    else .ok filtered

/-- Weight used by `PriceAggregator::confidence_weighted_average`:
`1 / (1 + (confidence/price) * 10)` on the raw integer fields. -/
def confWeight (p : PriceData) : ℚ :=
  1 / (1 + ((p.confidence : ℚ) / (p.price : ℚ)) * 10)

/-- Accumulating loop of `PriceAggregator::confidence_weighted_average`:
returns the pair (weighted_sum, total_weight). -/
def cwFold (prices : List PriceData) : ℚ × ℚ :=
  prices.foldl
    (fun acc p => (acc.1 + normalize_price p * confWeight p, acc.2 + confWeight p))
    (0, 0)

/-- PriceAggregator::confidence_weighted_average from `aggregator.rs`. -/
def confidence_weighted_average (prices : List PriceData) : Except String ℚ :=
  let acc := cwFold prices
  if acc.2 = 0 then .error "Zero total weight in confidence calculation"
  else .ok (acc.1 / acc.2)

/-- PriceAggregator::volume_weighted_average from `aggregator.rs`: despite
its name it falls back to the arithmetic mean of the normalized prices, or
`none` on an empty list. -/
def volume_weighted_average (prices : List PriceData) : Option ℚ :=
  if prices = [] then none
  else some ((prices.map normalize_price).sum / (prices.length : ℚ))

/-- PriceAggregator::calculate_consensus from `aggregator.rs`: blend of
median, confidence-weighted average and the uniform-mean fallback with
weights `0.5`, `0.3`, `0.2`. -/
def calculate_consensus (prices : List PriceData) : Except String ℚ :=
  if prices.map normalize_price = [] then
    .error "No valid prices for consensus calculation"
  else
    (confidence_weighted_average prices).bind (fun weighted_avg =>
      .ok (calculate_median (prices.map normalize_price) * (1 / 2) +
           weighted_avg * (3 / 10) +
           ((volume_weighted_average prices).getD
             (calculate_median (prices.map normalize_price))) * (1 / 5)))

/-- PriceAggregator::calculate_confidence from `aggregator.rs` (root mean
square of the confidence ratios, scaled back to integer units); the float
square root is replaced by the `sqrtQ` stand-in. -/
def calculate_confidence (prices : List PriceData) : Nat :=
  if prices = [] then 2 ^ 64 - 1
  else
    let confidence_sum :=
      (prices.map (fun p =>
        let r := (p.confidence : ℚ) / (p.price : ℚ)
        r * r)).sum
    let rms_confidence := sqrtQ (confidence_sum / (prices.length : ℚ))
    let combined_price := (prices.map normalize_price).sum / (prices.length : ℚ)
    f64AsU64 (rms_confidence * combined_price * (10 : ℚ) ^ (8 : Nat))

/-- Latest-timestamp computation from line 47 of `aggregator.rs`:
`prices.iter().map(|p| p.timestamp).max().unwrap_or(0)`; note it ranges over
the full input list, not the filtered one. -/
def latest_timestamp (prices : List PriceData) : Int :=
  ((prices.map PriceData.timestamp).max?).getD 0

/-- PriceAggregator::aggregate_prices from `aggregator.rs` with the
constructor default `min_sources = 1`. -/
def aggregate_prices (prices : List PriceData) (symbol : String) :
    Except String PriceData :=
  if prices.length < 1 then .error "Insufficient price sources"
  else
    (filter_outliers (prices.map normalize_price) prices).bind
      (fun filtered_prices =>
        (calculate_consensus filtered_prices).bind (fun consensus_price =>
          .ok
            { price := f64AsI64 (consensus_price * (10 : ℚ) ^ (8 : Nat))
              confidence := calculate_confidence filtered_prices
              expo := -8
              timestamp := latest_timestamp prices
              source := .aggregated
              symbol := symbol }))

/-- Spec-side consensus formula, written from the specification words of §4.3
for comparison with the code: `0.5 * median + 0.3 * (Σ w_i v_i / Σ w_i) +
0.2 * mean` with `w_i = 1 / (1 + 10 * confidence_i / price_i)`. -/
def specConsensus (survivors : List PriceData) : ℚ :=
  let vs := survivors.map normalize_price
  (1 / 2 : ℚ) * calculate_median vs +
  (3 / 10 : ℚ) *
    ((survivors.map (fun p => confWeight p * normalize_price p)).sum /
     (survivors.map confWeight).sum) +
  (1 / 5 : ℚ) * (vs.sum / (survivors.length : ℚ))

/-- Spec-side median of the normalized values of a reading list, for
claim C2. -/
def specMed (readings : List PriceData) : ℚ :=
  calculate_median (readings.map normalize_price)

/-- Spec-side median absolute deviation of the normalized values, for
claim C2. -/
def specMad (readings : List PriceData) : ℚ :=
  calculate_median
    ((readings.map normalize_price).map (fun v => |v - specMed readings|))

/-- Spec-side survivors of the outlier filter, written from the
specification words of §4.3 step 3 for comparison with the code: keep
reading `i` exactly when its modified z-score
`0.6745 × |v_i − med| / mad` (taken as `0` when `mad = 0`) is at most
`2.5`. -/
def specKept (readings : List PriceData) : List PriceData :=
  (((readings.map normalize_price).zip readings).filter (fun pr =>
    decide ((if 0 < specMad readings then
        (6745 / 10000 : ℚ) * |pr.1 - specMed readings| / specMad readings
      else 0) ≤ (5 / 2 : ℚ)))).map Prod.snd

/-! Two-complement helpers for the release-profile `i64`/`u64` arithmetic of
the Rust code. -/

/-- Wrap an unbounded integer into the `i64` range `[-2^63, 2^63)`. -/
def wrapI64 (x : Int) : Int := (x + 2 ^ 63) % 2 ^ 64 - 2 ^ 63

/-- Reinterpret an `i64` value as a `u64` (the Rust cast `as u64`). -/
def i64AsU64 (x : Int) : Nat := (x % 2 ^ 64).toNat

/-- Reinterpret a `u64` value as an `i64` (the Rust cast `as i64`). -/
def u64AsI64 (n : Nat) : Int :=
  if (n : Int) % 2 ^ 64 < 2 ^ 63 then (n : Int) % 2 ^ 64
  else (n : Int) % 2 ^ 64 - 2 ^ 64

/-- Truncating division by two, the Rust `i64` operator `/ 2`. -/
def tdivTwo (x : Int) : Int := if 0 ≤ x then x / 2 else -(-x / 2)

/-- Wrapping absolute value on `i64` (`i64::abs` in a release build wraps
`i64::MIN` back to itself). -/
def i64WrappingAbs (x : Int) : Int := wrapI64 (x.natAbs : Int)

/-- Confidence computation from line 87 of `clients/switchboard.rs`:
`((max_response - min_response).abs() / 2) as u64`, with the subtraction and
the absolute value performed in wrapping `i64` arithmetic (the release-build
semantics; a debug build would panic on overflow instead). -/
def sbConfidence (min_response max_response : Int) : Nat :=
  i64AsU64 (tdivTwo (i64WrappingAbs (wrapI64 (max_response - min_response))))

/-- Validation from `PythClient::validate_price_data` in `clients/pyth.rs`:
positivity, staleness against the wall clock `now`, future-timestamp check,
then the raw-mantissa range checks (`10_000_000_00000000 = 10^15` and
`1000`). -/
def validate_price_data (price now timestamp : Int) : Except String Unit :=
  if price ≤ 0 then .error "Invalid Pyth price: non-positive value"
  else if now - timestamp > 300 then .error "Stale Pyth price"
  else if now - timestamp < 0 then .error "Invalid Pyth timestamp: future timestamp detected"
  else if price > 10 ^ 15 then .error "Pyth price too high (sanity check failed)"
  else if price < 1000 then .error "Pyth price too low (below minimum threshold)"
  else .ok ()

/-- Validation from `SwitchboardClient::validate_result` in
`clients/switchboard.rs`: positivity and the raw-mantissa range checks
(`100` and `1_000_000_00000000 = 10^14`). -/
def validate_result (price : Int) : Except String Unit :=
  if price ≤ 0 then .error "Invalid Switchboard price: price must be positive"
  else if price < 100 then .error "Switchboard price too low"
  else if price > 10 ^ 14 then .error "Switchboard price too high"
  else .ok ()

/-- Post-parse pipeline of `SwitchboardClient::get_price` (lines 74-100 of
`clients/switchboard.rs`): staleness check against the wall clock, result
validation, confidence from the min/max responses, and assembly of the
emitted `PriceData` (symbol is set to the empty string by the client). -/
def sb_get_price_checks (mantissa : Int) (scale : Nat)
    (now ts min_response max_response : Int) : Except String PriceData :=
  if now - ts > 300 then .error "Stale Switchboard data"
  else
    (validate_result mantissa).bind (fun _ =>
      .ok
        { price := mantissa
          confidence := sbConfidence min_response max_response
          expo := -(scale : Int)
          timestamp := ts
          source := .switchboard
          symbol := "" })

/-! Cache model: the Redis commands issued by `cache.rs` are embedded as an
explicit effect list; the JSON payload is represented by the `PriceData`
value it serializes. -/

/-- RedisEffect: one Redis command issued by the price cache. -/
inductive RedisEffect where
  | setEx (key : String) (value : PriceData) (ttl : Nat)
  | zadd (key : String) (score : Int) (value : PriceData)
  | zremrangebyrank (key : String) (start stop : Int)
  | publish (channel : String) (message : PriceData)
deriving DecidableEq, Repr

/-- PriceCache::set_price from `cache.rs`: SETEX on `price:<symbol>` with the
cache TTL, ZADD of the reading onto `history:<symbol>` scored by timestamp,
and a ZREMRANGEBYRANK trim keeping the last 1000 entries. -/
def set_price (cache_ttl : Nat) (symbol : String) (price_data : PriceData) :
    List RedisEffect :=
  [ .setEx ("price:" ++ symbol) price_data cache_ttl,
    .zadd ("history:" ++ symbol) price_data.timestamp price_data,
    .zremrangebyrank ("history:" ++ symbol) 0 (-1001) ]

/-- PriceCache::publish_price_update from `cache.rs`: a single PUBLISH on
`price_updates:<symbol>`. -/
def publish_price_update (symbol : String) (price_data : PriceData) :
    List RedisEffect :=
  [ .publish ("price_updates:" ++ symbol) price_data ]

/-- Predicate singling out the PUBLISH command. -/
def isPublishEffect : RedisEffect → Bool
  | .publish _ _ => true
  | _ => false

/-- Cache effects of one iteration of `OracleManager::price_fetch_loop`
(lines 91-111 of `manager.rs`): on a successful fetch-and-aggregate the loop
calls `set_price` with the constructor default `cache_ttl = 300` and nothing
else; on failure it touches the cache not at all. -/
def price_fetch_tick_effects (fetch_result : Except String PriceData)
    (symbol : String) : List RedisEffect :=
  match fetch_result with
  | .ok price_data => set_price 300 symbol price_data
  | .error _ => []

/-! Health-tracking state machine from `types.rs`. -/

/-- OracleHealth record from `types.rs` (the float `average_latency` field is
carried as a rational; `OracleHealth::update` never touches it). -/
structure OracleHealth where
  is_healthy : Bool
  last_update : Int
  consecutive_failures : Nat
  total_requests : Nat
  successful_requests : Nat
  average_latency : ℚ
  last_error : Option String
deriving DecidableEq, Repr

/-- Default OracleHealth value (`impl Default` in `types.rs`) at wall time
`now`. -/
def healthDefault (now : Int) : OracleHealth :=
  { is_healthy := true
    last_update := now
    consecutive_failures := 0
    total_requests := 0
    successful_requests := 0
    average_latency := 0
    last_error := none }

/-- OracleHealth::update from `types.rs`, with the wall-clock reading passed
explicitly. -/
def OracleHealth.update (h : OracleHealth) (now : Int) (success : Bool) :
    OracleHealth :=
  let h := { h with last_update := now, total_requests := h.total_requests + 1 }
  if success then
    { h with
      successful_requests := h.successful_requests + 1
      consecutive_failures := 0
      is_healthy := true
      last_error := none }
  else
    let cf := h.consecutive_failures + 1
    { h with
      consecutive_failures := cf
      is_healthy := if 3 ≤ cf then false else h.is_healthy }

/-- Fold a sequence of update outcomes over a health record (the wall-clock
argument is irrelevant to every claim and fixed at `0`). -/
def runUpdates (h : OracleHealth) (events : List Bool) : OracleHealth :=
  events.foldl (fun acc e => acc.update 0 e) h

/-- Number of consecutive failures at the end of an outcome sequence. -/
def trailingFailures (events : List Bool) : Nat :=
  (events.reverse.takeWhile (fun e => !e)).length

/-! Freshness check from `cache.rs` and the cache read path of
`manager.rs`. -/

/-- PriceData::is_fresh from `cache.rs` (lines 250-257): the age
`now - timestamp` is computed in `i64` arithmetic and compared against
`max_age.as_secs() as i64`, a `u64`-to-`i64` cast. -/
def is_fresh (now timestamp : Int) (max_age_secs : Nat) : Bool :=
  decide (wrapI64 (now - timestamp) ≤ u64AsI64 max_age_secs)

/-- Cache decision of `OracleManager::get_current_price` (lines 149-156 of
`manager.rs`): a cached reading is served iff it is `is_fresh` for a
five-second window. -/
def serves_cached_price (now : Int) (cached : Option PriceData) : Bool :=
  match cached with
  | some pd => is_fresh now pd.timestamp 5
  | none => false

/-! Concrete readings used by counterexamples and witnesses. -/

/-- Reading with normalized value `1` and timestamp `10`. -/
def t1 : PriceData := ⟨1, 0, 0, 10, .pyth, "T"⟩

/-- Reading with normalized value `2` and timestamp `11`. -/
def t2 : PriceData := ⟨2, 0, 0, 11, .switchboard, "T"⟩

/-- Reading with normalized value `3` and timestamp `12`. -/
def t3 : PriceData := ⟨3, 0, 0, 12, .pyth, "T"⟩

/-- Outlier reading with normalized value `100` and the largest timestamp
`13`; the filter drops it, yet its timestamp is the one the aggregator
forwards. -/
def t4 : PriceData := ⟨100, 0, 0, 13, .switchboard, "T"⟩

/-- Singleton reading whose consensus value scaled by `10^8` is `3/2`:
truncation gives `1` where rounding would give `2`. -/
def rc1 : PriceData := ⟨15, 0, -9, 7, .pyth, "Y"⟩

/-- Singleton reading whose consensus value scaled by `10^8` is `5/2`:
truncation gives `2` where rounding would give `3`. -/
def rc8 : PriceData := ⟨25, 0, -9, 42, .pyth, "X"⟩

/-- Concrete aggregated reading used by the cache-effect counterexample. -/
def c6pd : PriceData := ⟨100, 1, -8, 5, .aggregated, "BTC/USD"⟩

/-- Concrete future-dated reading used by the freshness witness. -/
def c10pd : PriceData := ⟨100, 1, -8, 1010, .aggregated, "BTC/USD"⟩

/-- Output record of the aggregator on the singleton input `[t1]`. -/
def aggOut1 : PriceData :=
  { price := f64AsI64 (specConsensus [t1] * (10 : ℚ) ^ (8 : Nat))
    confidence := calculate_confidence [t1]
    expo := -8
    timestamp := latest_timestamp [t1]
    source := .aggregated
    symbol := "T" }

/-- Output record of the aggregator on the four-reading input
`[t1, t2, t3, t4]`, whose outlier filter drops `t4`. -/
def aggOut4 : PriceData :=
  { price := f64AsI64 (specConsensus [t1, t2, t3] * (10 : ℚ) ^ (8 : Nat))
    confidence := calculate_confidence [t1, t2, t3]
    expo := -8
    timestamp := latest_timestamp [t1, t2, t3, t4]
    source := .aggregated
    symbol := "T" }

/-! Helper lemmas. -/

/-- wrapI64 is the identity on the `i64` range. -/
lemma wrapI64_eq_self {x : Int} (h1 : -(2 ^ 63) ≤ x) (h2 : x < 2 ^ 63) :
    wrapI64 x = x := by
  unfold wrapI64
  rw [Int.emod_eq_of_lt (by omega) (by omega)]
  omega

/-- u64AsI64 is the identity below `2^63`. -/
lemma u64AsI64_of_lt {n : Nat} (h : n < 2 ^ 63) : u64AsI64 n = (n : Int) := by
  unfold u64AsI64
  rw [Int.emod_eq_of_lt (by positivity) (by exact_mod_cast lt_trans h (by norm_num))]
  simp only [if_pos (show (n : Int) < 2 ^ 63 by exact_mod_cast h)]

/-- pow10 at the literal exponent `-9`, used by the concrete singleton
counterexamples. -/
lemma pow10_neg9 : pow10 (-9) = ((10 : ℚ) ^ (9 : Nat))⁻¹ := rfl

/-- ratAbs agrees with the Mathlib absolute value. -/
lemma ratAbs_eq_abs (q : ℚ) : ratAbs q = |q| := by
  unfold ratAbs
  split_ifs with h
  · exact (abs_of_nonneg h).symm
  · exact (abs_of_neg (lt_of_not_le h)).symm

/-! Claim C4: the post-decode range checks. -/

/-- C4 (amended): the post-decode sanity checks of both decoders bound the
raw integer mantissa and ignore `expo`.  The PRIMARY decoder accepts exactly
the prices in `[1000, 10^15]` (given that the timestamp checks pass), and
the SECONDARY decoder accepts exactly the prices in `[100, 10^14]`; the two
bounds differ. -/
theorem c4_range_checks_are_on_raw_mantissa (p now ts : Int) :
    (validate_price_data p now ts = .ok () ↔
      1000 ≤ p ∧ p ≤ 10 ^ 15 ∧ 0 ≤ now - ts ∧ now - ts ≤ 300) ∧
    (validate_result p = .ok () ↔ 100 ≤ p ∧ p ≤ 10 ^ 14) := by
  constructor
  · unfold validate_price_data
    split_ifs <;> simp <;> omega
  · unfold validate_result
    split_ifs <;> simp <;> omega

/-- C4 counterexample: the PRIMARY decoder accepts the reading
`price = 10^15`, `expo = 0`, whose exponent-scaled value `10^15` is far
outside `[1e-4, 1e7]`; it also accepts `price = 2·10^14`, which the
SECONDARY decoder rejects, so the two upper bounds are not the same. -/
theorem c4_counterexample :
    (validate_price_data (10 ^ 15) 1000 1000).toOption = some () ∧
    ¬ ((10 ^ 15 : ℚ) * pow10 0 ≤ 10 ^ 7) ∧
    (validate_price_data (2 * 10 ^ 14) 1000 1000).toOption = some () ∧
    (validate_result (2 * 10 ^ 14)).toOption = none := by
  refine ⟨by decide, by norm_num [pow10], by decide, by decide⟩

/-! Claim C5: future-timestamp handling of the two decoders. -/

/-- C5 (amended): only the PRIMARY decoder rejects future timestamps; the
SECONDARY decoder has no future-timestamp check and emits a reading carrying
any timestamp that satisfies `now - ts ≤ 300`, future ones included. -/
theorem c5_future_timestamps (p m : Int) (sc : Nat) (now ts mn mx : Int)
    (hfut : now < ts) :
    validate_price_data p now ts ≠ .ok () ∧
    (100 ≤ m → m ≤ 10 ^ 14 →
      (sb_get_price_checks m sc now ts mn mx).toOption.map (·.timestamp) =
        some ts) := by
  constructor
  · unfold validate_price_data
    split_ifs <;> (simp; try omega)
  · intro hlo hhi
    unfold sb_get_price_checks validate_result
    rw [if_neg (by omega), if_neg (by omega), if_neg (by omega), if_neg (by omega)]
    rfl

/-- C5 witness: at `now = 1000` the PRIMARY validation rejects a reading
dated `1001` while the SECONDARY pipeline emits it. -/
theorem c5_future_timestamps_witness :
    (validate_price_data 5000 1000 1001).toOption = none ∧
    (sb_get_price_checks 5000 8 1000 1001 0 0).toOption.map (·.timestamp) =
      some 1001 := by
  have h := c5_future_timestamps 5000 5000 8 1000 1001 0 0 (by decide)
  refine ⟨?_, h.2 (by decide) (by decide)⟩
  cases hv : validate_price_data 5000 1000 1001 with
  | error e => rfl
  | ok u => exact absurd (u.rec hv) h.1

/-- C5 counterexample: the SECONDARY decoder accepts a payload whose
timestamp `1100` is strictly in the future of the wall clock `1000` and
emits the future-dated reading downstream. -/
theorem c5_counterexample :
    (sb_get_price_checks 5000 8 1000 1100 0 0).toOption.map (·.timestamp) =
      some 1100 ∧ (1000 : Int) < 1100 := by
  exact ⟨by decide, by decide⟩

/-! Claim C6: effects of the cache write path. -/

/-- C6 (amended): `set_price` performs exactly three Redis effects — SETEX
on `price:<symbol>` with the TTL, ZADD of the reading onto
`history:<symbol>`, and the ZREMRANGEBYRANK trim to the most recent 1000
entries — and never publishes; publishing on `price_updates:<symbol>` is the
separate operation `publish_price_update`, which the polling write path does
not invoke. -/
theorem c6_set_price_effects (ttl : Nat) (sym : String) (pd : PriceData)
    (res : Except String PriceData) :
    set_price ttl sym pd =
      [ .setEx ("price:" ++ sym) pd ttl,
        .zadd ("history:" ++ sym) pd.timestamp pd,
        .zremrangebyrank ("history:" ++ sym) 0 (-1001) ] ∧
    (set_price ttl sym pd).any isPublishEffect = false ∧
    (price_fetch_tick_effects res sym).any isPublishEffect = false ∧
    publish_price_update sym pd = [.publish ("price_updates:" ++ sym) pd] := by
  refine ⟨rfl, rfl, ?_, rfl⟩
  cases res <;> rfl

/-- C6 counterexample: a concrete `set_price` call emits three effects and
none of them is a publish, so the fourth claimed effect does not happen. -/
theorem c6_counterexample :
    (set_price 300 "BTC/USD" c6pd).any isPublishEffect = false ∧
    (set_price 300 "BTC/USD" c6pd).length = 3 := by
  exact ⟨by decide, by decide⟩

/-! Claim C9: the SECONDARY confidence computation. -/

/-- C9 (amended): the decoded confidence is computed with wrapping `i64`
arithmetic, not saturating arithmetic: it equals `|max − min| / 2` exactly
when the difference `max − min` fits strictly inside `i64`; outside that
range the subtraction overflows (wrapping in a release build, panicking
under debug assertions), so the computation is neither saturating nor
total. -/
theorem c9_confidence_wrapping (mn mx : Int)
    (h1 : -(2 ^ 63) < mx - mn) (h2 : mx - mn < 2 ^ 63) :
    sbConfidence mn mx = (mx - mn).natAbs / 2 := by
  unfold sbConfidence i64WrappingAbs tdivTwo i64AsU64
  rw [wrapI64_eq_self (by omega) h2]
  rw [wrapI64_eq_self (by omega) (by omega)]
  rw [if_pos (by positivity)]
  omega

/-- C9 witness: at `min = 3`, `max = 13` the difference fits in `i64` and
the confidence is `5`. -/
theorem c9_confidence_wrapping_witness :
    (-(2 ^ 63) : Int) < 13 - 3 ∧ ((13 : Int) - 3) < 2 ^ 63 ∧
    sbConfidence 3 13 = ((13 : Int) - 3).natAbs / 2 := by
  exact ⟨by decide, by decide, c9_confidence_wrapping 3 13 (by decide) (by decide)⟩

/-- C9 counterexample: at `min = -2`, `max = 2^63 - 1` the true spread is
`2^63 + 1` and `|max − min| / 2` saturated into `u64` would be `2^62`, but
the wrapping computation returns `2^62 - 1`. -/
theorem c9_counterexample :
    sbConfidence (-2) (2 ^ 63 - 1) = 2 ^ 62 - 1 ∧
    ((2 ^ 63 - 1 : Int) - (-2)).natAbs / 2 = 2 ^ 62 := by
  exact ⟨by decide, by decide⟩

/-! Claim C10: freshness of future-dated readings. -/

/-- C10 (amended): for every `max_age` whose whole-second count is below
`2^63` (so that the `u64`-to-`i64` cast of `max_age.as_secs()` does not
wrap), a reading dated strictly in the future is always fresh, and the read
path of `get_current_price` (a five-second window, far below that bound)
therefore serves it from the cache.  The restriction is needed: the claim
as stated quantifies over every non-negative `max_age`, and the
counterexample below exhibits a wrapping `max_age` at which a future
reading is reported stale. -/
theorem c10_future_readings_are_fresh (now ts : Int) (maxAge : Nat)
    (pd : PriceData) (h0 : 0 ≤ now) (h1 : now < ts) (h2 : ts < 2 ^ 63)
    (h3 : maxAge < 2 ^ 63) (hpd : pd.timestamp = ts) :
    is_fresh now ts maxAge = true ∧
    serves_cached_price now (some pd) = true := by
  have hfresh : ∀ m : Nat, m < 2 ^ 63 → is_fresh now ts m = true := by
    intro m hm
    unfold is_fresh
    rw [wrapI64_eq_self (by omega) (by omega), u64AsI64_of_lt hm]
    exact decide_eq_true (by omega)
  refine ⟨hfresh maxAge h3, ?_⟩
  show is_fresh now pd.timestamp 5 = true
  rw [hpd]
  exact hfresh 5 (by norm_num)

/-- C10 witness: a reading dated `1010` is fresh at wall time `1000` for a
seven-second window and is served from the cache. -/
theorem c10_future_readings_are_fresh_witness :
    is_fresh 1000 1010 7 = true ∧
    serves_cached_price 1000 (some c10pd) = true := by
  exact c10_future_readings_are_fresh 1000 1010 7 c10pd (by decide) (by decide)
    (by decide) (by decide) rfl

/-- C10 counterexample: the claim quantifies over every non-negative
`max_age`, but at the particular value `max_age = 2^63` seconds the cast
yields `-2^63` and the future-dated reading `1010` is reported stale at
wall time `1000`. -/
theorem c10_counterexample :
    is_fresh 1000 1010 (2 ^ 63) = false ∧ (1000 : Int) < 1010 := by
  exact ⟨by decide, by decide⟩

/-! Claim C7: the health-tracking state machine. -/

/-- Unfolding of runUpdates on a cons. -/
lemma runUpdates_cons (h : OracleHealth) (e : Bool) (es : List Bool) :
    runUpdates h (e :: es) = runUpdates (h.update 0 e) es := rfl

/-- Unfolding of runUpdates on an appended last event. -/
lemma runUpdates_append (h : OracleHealth) (es : List Bool) (e : Bool) :
    runUpdates h (es ++ [e]) = (runUpdates h es).update 0 e := by
  simp [runUpdates, List.foldl_append]

/-- Every update increments the total request counter. -/
lemma update_total (h : OracleHealth) (now : Int) (e : Bool) :
    (h.update now e).total_requests = h.total_requests + 1 := by
  cases e <;> rfl

/-- Every update increments the success counter exactly on success. -/
lemma update_succ (h : OracleHealth) (now : Int) (e : Bool) :
    (h.update now e).successful_requests =
      h.successful_requests + (if e then 1 else 0) := by
  cases e <;> rfl

/-- Total requests after a run. -/
lemma runUpdates_total (es : List Bool) (h : OracleHealth) :
    (runUpdates h es).total_requests = h.total_requests + es.length := by
  induction es generalizing h with
  | nil => rfl
  | cons e es ih =>
    rw [runUpdates_cons, ih, update_total]
    simp [Nat.add_assoc, Nat.add_comm 1]

/-- Successful requests after a run. -/
lemma runUpdates_succ (es : List Bool) (h : OracleHealth) :
    (runUpdates h es).successful_requests =
      h.successful_requests + es.count true := by
  induction es generalizing h with
  | nil => rfl
  | cons e es ih =>
    rw [runUpdates_cons, ih, update_succ]
    cases e <;> (simp [List.count_cons]; try omega)

/-- The trailing-failure count is zeroed by a final success. -/
lemma trailingFailures_append_true (es : List Bool) :
    trailingFailures (es ++ [true]) = 0 := by
  simp [trailingFailures, List.takeWhile]

/-- The trailing-failure count grows by one on a final failure. -/
lemma trailingFailures_append_false (es : List Bool) :
    trailingFailures (es ++ [false]) = trailingFailures es + 1 := by
  simp [trailingFailures, List.takeWhile]

/-- Core correspondence for C7: starting from the default record, the
consecutive-failure counter equals the trailing-failure count of the event
sequence, the health flag is exactly the test `trailingFailures < 3`, and
the last error is `none` whenever the last event was not a failure streak
of length ≥ 1 ending in failure (it is cleared by every success). -/
lemma runUpdates_cf_healthy (t0 : Int) (es : List Bool) :
    (runUpdates (healthDefault t0) es).consecutive_failures =
      trailingFailures es ∧
    (runUpdates (healthDefault t0) es).is_healthy =
      decide (trailingFailures es < 3) := by
  induction es using List.reverseRecOn with
  | nil => exact ⟨rfl, rfl⟩
  | append_singleton es e ih =>
    rw [runUpdates_append]
    cases e with
    | true =>
      rw [trailingFailures_append_true]
      exact ⟨rfl, rfl⟩
    | false =>
      rw [trailingFailures_append_false]
      obtain ⟨ihcf, ihh⟩ := ih
      constructor
      · show (runUpdates (healthDefault t0) es).consecutive_failures + 1 = _
        omega
      · show (if 3 ≤ (runUpdates (healthDefault t0) es).consecutive_failures + 1
              then false
              else (runUpdates (healthDefault t0) es).is_healthy) = _
        rw [ihcf, ihh]
        by_cases h3 : 3 ≤ trailingFailures es + 1
        · rw [if_pos h3]
          exact (decide_eq_false (by omega)).symm
        · rw [if_neg h3]
          rw [decide_eq_true (by omega), decide_eq_true (by omega)]

/-- C7 (confirmed): over every update sequence applied to a fresh health
record, the total counter counts every update and the success counter
exactly the successes; the consecutive-failure counter equals the length of
the trailing failure streak; the record is healthy exactly when that streak
is shorter than three, so a final success always leaves it healthy with the
counter reset and the error cleared, and a final failure leaves it
unhealthy exactly when it is at least the third consecutive failure. -/
theorem c7_health_state_machine (t0 : Int) (es : List Bool) :
    (runUpdates (healthDefault t0) es).total_requests = es.length ∧
    (runUpdates (healthDefault t0) es).successful_requests = es.count true ∧
    (runUpdates (healthDefault t0) es).consecutive_failures =
      trailingFailures es ∧
    (runUpdates (healthDefault t0) es).is_healthy =
      decide (trailingFailures es < 3) ∧
    (runUpdates (healthDefault t0) (es ++ [true])).is_healthy = true ∧
    (runUpdates (healthDefault t0) (es ++ [true])).consecutive_failures = 0 ∧
    (runUpdates (healthDefault t0) (es ++ [true])).last_error = none ∧
    (runUpdates (healthDefault t0) (es ++ [false])).is_healthy =
      decide (trailingFailures es + 1 < 3) := by
  obtain ⟨hcf, hh⟩ := runUpdates_cf_healthy t0 es
  obtain ⟨hcf1, hh1⟩ := runUpdates_cf_healthy t0 (es ++ [false])
  refine ⟨?_, ?_, hcf, hh, ?_, ?_, ?_, ?_⟩
  · rw [runUpdates_total]; simp [healthDefault]
  · rw [runUpdates_succ]; simp [healthDefault]
  · rw [runUpdates_append]; rfl
  · rw [runUpdates_append]; rfl
  · rw [runUpdates_append]; rfl
  · rw [hh1, trailingFailures_append_false]

/-! Aggregator helper lemmas. -/

/-- The filter loop is the filter of the zipped lists by the z-score bound,
projected back to the readings. -/
lemma filterLoop_eq (m d : ℚ) (vs : List ℚ) (ds : List PriceData) :
    filterLoop m d vs ds =
      ((vs.zip ds).filter
        (fun pr => decide (modifiedZScore m d pr.1 ≤ (5 / 2 : ℚ)))).map
        Prod.snd := by
  induction vs generalizing ds with
  | nil => simp [filterLoop]
  | cons v vs ih =>
    cases ds with
    | nil => simp [filterLoop]
    | cons p ds =>
      rw [filterLoop]
      by_cases hz : modifiedZScore m d v ≤ (5 / 2 : ℚ)
      · rw [if_pos hz]
        simp only [List.zip_cons_cons, List.filter_cons]
        rw [if_pos (by simpa using hz)]
        simp [ih]
      · rw [if_neg hz]
        simp only [List.zip_cons_cons, List.filter_cons]
        rw [if_neg (by simpa using hz)]
        exact ih ds

/-- Binding an `Except` value yields `ok` exactly when both stages do. -/
lemma except_bind_eq_ok {ε α β : Type} (ex : Except ε α) (f : α → Except ε β)
    (out : β) :
    ex.bind f = .ok out ↔ ∃ x, ex = .ok x ∧ f x = .ok out := by
  cases ex <;> simp [Except.bind]

/-- Readings returned by the outlier filter come from the original list. -/
lemma filter_outliers_subset {ps : List ℚ} {orig S' : List PriceData}
    (h : filter_outliers ps orig = .ok S') : ∀ x ∈ S', x ∈ orig := by
  simp only [filter_outliers] at h
  split_ifs at h with hlen hempty
  · cases h
    exact fun x hx => hx
  · cases h
    intro x hx
    rw [filterLoop_eq] at hx
    obtain ⟨pr, hmem, hsnd⟩ := List.mem_map.mp hx
    exact hsnd ▸ (List.of_mem_zip (List.mem_of_mem_filter hmem)).2

/-- A successful outlier filter on a non-empty input returns a non-empty
list of survivors. -/
lemma filter_outliers_ne_nil {ps : List ℚ} {orig S' : List PriceData}
    (hne : orig ≠ []) (h : filter_outliers ps orig = .ok S') : S' ≠ [] := by
  simp only [filter_outliers] at h
  split_ifs at h with hlen hempty
  · cases h
    exact hne
  · cases h
    exact hempty

/-- The accumulating loop of the confidence-weighted average computes the
pair of sums. -/
lemma cwFold_eq (prices : List PriceData) :
    cwFold prices =
      ((prices.map (fun p => normalize_price p * confWeight p)).sum,
       (prices.map confWeight).sum) := by
  suffices h : ∀ (l : List PriceData) (a b : ℚ),
      l.foldl
        (fun acc p =>
          (acc.1 + normalize_price p * confWeight p, acc.2 + confWeight p))
        (a, b) =
      (a + (l.map (fun p => normalize_price p * confWeight p)).sum,
       b + (l.map confWeight).sum) by
    rw [cwFold, h]
    simp
  intro l
  induction l with
  | nil => intro a b; simp
  | cons p l ih =>
    intro a b
    rw [List.foldl_cons, ih]
    simp
    constructor <;> ring

/-- The confidence weight of a positive-price reading is positive. -/
lemma confWeight_pos {p : PriceData} (h : 0 < p.price) : 0 < confWeight p := by
  unfold confWeight
  have hp : (0 : ℚ) < (p.price : ℚ) := by exact_mod_cast h
  have hc : (0 : ℚ) ≤ (p.confidence : ℚ) := by positivity
  have hr : (0 : ℚ) ≤ (p.confidence : ℚ) / (p.price : ℚ) := by positivity
  have : (0 : ℚ) < 1 + (p.confidence : ℚ) / (p.price : ℚ) * 10 := by nlinarith
  positivity

/-- The total confidence weight of a non-empty list of positive-price
readings is positive. -/
lemma total_weight_pos {l : List PriceData} (hne : l ≠ [])
    (hpos : ∀ p ∈ l, 0 < p.price) : 0 < (l.map confWeight).sum := by
  refine List.sum_pos _ ?_ (by simpa using hne)
  intro x hx
  obtain ⟨p, hp, rfl⟩ := List.mem_map.mp hx
  exact confWeight_pos (hpos p hp)

/-- On a non-empty list of positive-price readings the code's consensus
computation succeeds and returns exactly the spec-side consensus formula. -/
lemma calculate_consensus_eq_spec {l : List PriceData} (hne : l ≠ [])
    (hpos : ∀ p ∈ l, 0 < p.price) :
    calculate_consensus l = .ok (specConsensus l) := by
  have hw := total_weight_pos hne hpos
  unfold calculate_consensus confidence_weighted_average volume_weighted_average
  rw [cwFold_eq]
  rw [if_neg (by simpa using hne), if_neg (ne_of_gt hw), if_neg hne]
  show Except.ok _ = _
  simp only [Option.getD_some, Except.ok.injEq]
  unfold specConsensus
  have hmaps : (l.map (fun p => confWeight p * normalize_price p)).sum =
      (l.map (fun p => normalize_price p * confWeight p)).sum := by
    congr 1
    exact List.map_congr_left (fun p _ => mul_comm _ _)
  rw [hmaps]
  ring

/-- The median of a singleton is its element. -/
lemma calculate_median_singleton (v : ℚ) : calculate_median [v] = v := by
  simp [calculate_median, List.insertionSort, List.orderedInsert]

/-- pow10 of a negated exponent is the inverse. -/
lemma pow10_neg (e : Int) : pow10 (-e) = (pow10 e)⁻¹ := by
  unfold pow10
  rcases lt_trichotomy e 0 with h | h | h
  · rw [if_pos (by omega : (0 : Int) ≤ -e), if_neg (by omega : ¬ (0 : Int) ≤ e),
      inv_inv]
  · subst h
    norm_num
  · rw [if_neg (by omega : ¬ (0 : Int) ≤ -e), if_pos (by omega : (0 : Int) ≤ e),
      neg_neg]

/-- Normalization is multiplication by `10^expo`. -/
lemma normalize_price_eq (p : PriceData) :
    normalize_price p = (p.price : ℚ) * pow10 p.expo := by
  unfold normalize_price
  rw [pow10_neg, div_eq_mul_inv, inv_inv]

/-- The spec consensus of a singleton is its normalized value. -/
lemma specConsensus_singleton {r : PriceData} (h : 0 < r.price) :
    specConsensus [r] = normalize_price r := by
  have hw : confWeight r ≠ 0 := ne_of_gt (confWeight_pos h)
  unfold specConsensus
  simp only [List.map_cons, List.map_nil, List.sum_cons, List.sum_nil,
    List.length_cons, List.length_nil]
  rw [calculate_median_singleton]
  rw [add_zero, add_zero]
  rw [mul_comm (confWeight r) (normalize_price r),
    mul_div_assoc, div_self hw, mul_one]
  push_cast
  ring

/-- Dissection of a successful aggregation: the output record is assembled
from the outlier-filter survivors, the consensus value and the latest input
timestamp. -/
lemma aggregate_ok_iff (prices : List PriceData) (sym : String)
    (out : PriceData) :
    aggregate_prices prices sym = .ok out ↔
      ∃ S' c, 1 ≤ prices.length ∧
        filter_outliers (prices.map normalize_price) prices = .ok S' ∧
        calculate_consensus S' = .ok c ∧
        out = { price := f64AsI64 (c * (10 : ℚ) ^ (8 : Nat))
                confidence := calculate_confidence S'
                expo := -8
                timestamp := latest_timestamp prices
                source := .aggregated
                symbol := sym } := by
  unfold aggregate_prices
  split_ifs with hlen
  · constructor
    · intro h
      cases h
    · rintro ⟨S', c, h1, -⟩
      omega
  · simp only [except_bind_eq_ok, Except.ok.injEq]
    constructor
    · rintro ⟨S', hf, c, hc, hout⟩
      exact ⟨S', c, by omega, hf, hc, hout.symm⟩
    · rintro ⟨S', c, -, hf, hc, hout⟩
      exact ⟨S', hf, c, hc, hout.symm⟩

/-! Claim C2: the outlier filter. -/

/-- C2 (confirmed): with at most two readings the filter returns all of
them; with more than two it keeps exactly the readings whose modified
z-score against the median/MAD of the normalized values is at most `2.5`,
and it fails with the all-outliers error exactly when no reading is kept. -/
theorem c2_outlier_filter (readings : List PriceData) :
    (readings.length ≤ 2 →
      filter_outliers (readings.map normalize_price) readings =
        .ok readings) ∧
    (2 < readings.length →
      filter_outliers (readings.map normalize_price) readings =
        if specKept readings = [] then
          .error "All prices were filtered as outliers"
        else .ok (specKept readings)) := by
  constructor
  · intro hlen
    simp only [filter_outliers]
    rw [if_pos (by simpa using hlen)]
  · intro hlen
    simp only [filter_outliers]
    rw [if_neg (by simp only [List.length_map]; omega)]
    rw [filterLoop_eq]
    have hk : ((readings.map normalize_price).zip readings).filter
        (fun pr =>
          decide
            (modifiedZScore (calculate_median (readings.map normalize_price))
              (calculate_median
                ((readings.map normalize_price).map
                  (fun p =>
                    ratAbs
                      (p -
                        calculate_median (readings.map normalize_price)))))
              pr.1 ≤ (5 / 2 : ℚ))) =
        ((readings.map normalize_price).zip readings).filter (fun pr =>
          decide ((if 0 < specMad readings then
              (6745 / 10000 : ℚ) * |pr.1 - specMed readings| /
                specMad readings
            else 0) ≤ (5 / 2 : ℚ))) := by
      simp only [modifiedZScore, ratAbs_eq_abs, specMad, specMed]
    rw [specKept, hk]

/-- C2 witness: a two-reading input is returned unfiltered. -/
theorem c2_outlier_filter_witness :
    ([t1, t2] : List PriceData).length ≤ 2 ∧
    filter_outliers ([t1, t2].map normalize_price) [t1, t2] =
      .ok [t1, t2] := by
  exact ⟨by decide, (c2_outlier_filter [t1, t2]).1 (by decide)⟩

/-! Claim C3: the timestamp of the aggregated reading. -/

/-- C3 (amended): the timestamp of a successful aggregation is the maximum
timestamp over the FULL input set — including readings removed by the
outlier filter — not over the post-filter subset. -/
theorem c3_timestamp_over_full_input (prices : List PriceData) (sym : String)
    (out : PriceData) (hok : aggregate_prices prices sym = .ok out) :
    (∀ r ∈ prices, r.timestamp ≤ out.timestamp) ∧
    ∃ r ∈ prices, r.timestamp = out.timestamp := by
  obtain ⟨S', c, hlen, hf, hc, hout⟩ := (aggregate_ok_iff _ _ _).mp hok
  have hts : out.timestamp = latest_timestamp prices := by rw [hout]
  rw [hts]
  cases prices with
  | nil => simp at hlen
  | cons a as =>
    have hmax : ((a :: as).map PriceData.timestamp).max? =
        some ((as.map PriceData.timestamp).foldl max a.timestamp) := rfl
    have hlatest : latest_timestamp (a :: as) =
        (as.map PriceData.timestamp).foldl max a.timestamp := by
      rw [latest_timestamp, hmax]
      rfl
    rw [hlatest]
    constructor
    · intro r hr
      have hb := (List.max?_le_iff (fun x y z => max_le_iff) hmax).mp
        (le_refl _)
      exact hb r.timestamp (List.mem_map_of_mem _ hr)
    · have hmem := List.max?_mem (fun x y => max_choice x y) hmax
      obtain ⟨r, hr, hre⟩ := List.mem_map.mp hmem
      exact ⟨r, hr, hre⟩

/-- C3 witness: on the singleton input `[t1]` aggregation succeeds and the
input timestamp bounds the output timestamp. -/
theorem c3_timestamp_over_full_input_witness :
    aggregate_prices [t1] "T" = .ok aggOut1 ∧
    t1.timestamp ≤ aggOut1.timestamp := by
  have hok : aggregate_prices [t1] "T" = .ok aggOut1 :=
    (aggregate_ok_iff [t1] "T" aggOut1).mpr
      ⟨[t1], specConsensus [t1], by simp, rfl,
        calculate_consensus_eq_spec (by simp) (by decide), rfl⟩
  exact ⟨hok,
    (c3_timestamp_over_full_input [t1] "T" aggOut1 hok).1 t1 (by simp)⟩

/-! Evaluation lemmas for the four-reading counterexample input. -/

/-- Normalized values of the four test readings. -/
lemma eval_norm4 :
    [t1, t2, t3, t4].map normalize_price = [1, 2, 3, 100] := by
  norm_num [t1, t2, t3, t4, normalize_price, pow10]

/-- Sorting the four normalized values. -/
lemma eval_sort4 :
    List.insertionSort (fun a b : ℚ => a ≤ b) [1, 2, 3, 100] =
      [1, 2, 3, 100] := by
  norm_num [List.insertionSort, List.orderedInsert]

/-- Median of the four normalized values. -/
lemma eval_med4 : calculate_median [1, 2, 3, 100] = 5 / 2 := by
  simp only [calculate_median, eval_sort4]
  norm_num

/-- Absolute deviations of the four normalized values from the median. -/
lemma eval_dev4 :
    ([1, 2, 3, 100] : List ℚ).map (fun p => ratAbs (p - 5 / 2)) =
      [3 / 2, 1 / 2, 1 / 2, 195 / 2] := by
  norm_num [ratAbs]

/-- Sorting the deviations. -/
lemma eval_sortdev4 :
    List.insertionSort (fun a b : ℚ => a ≤ b) [3 / 2, 1 / 2, 1 / 2, 195 / 2] =
      [1 / 2, 1 / 2, 3 / 2, 195 / 2] := by
  norm_num [List.insertionSort, List.orderedInsert]

/-- Median absolute deviation of the four normalized values. -/
lemma eval_mad4 : calculate_median [3 / 2, 1 / 2, 1 / 2, 195 / 2] = 1 := by
  simp only [calculate_median, eval_sortdev4]
  norm_num

/-- The filter loop keeps the first three readings and drops the outlier. -/
lemma eval_loop4 :
    filterLoop (5 / 2) 1 [1, 2, 3, 100] [t1, t2, t3, t4] = [t1, t2, t3] := by
  norm_num [filterLoop, modifiedZScore, ratAbs]

/-- Full outlier-filter run on the four test readings. -/
lemma eval_filter4 :
    filter_outliers [1, 2, 3, 100] [t1, t2, t3, t4] = .ok [t1, t2, t3] := by
  simp only [filter_outliers]
  rw [if_neg (by norm_num)]
  rw [eval_med4, eval_dev4, eval_mad4, eval_loop4]
  rw [if_neg (by simp)]

/-- C3 counterexample: on the four test readings the aggregator succeeds,
the outlier filter keeps exactly the readings with timestamps
`[10, 11, 12]` whose maximum is `12`, yet the output timestamp is `13`, the
timestamp of the dropped outlier. -/
theorem c3_counterexample :
    (aggregate_prices [t1, t2, t3, t4] "T").toOption.map (·.timestamp) =
      some 13 ∧
    (filter_outliers ([t1, t2, t3, t4].map normalize_price)
        [t1, t2, t3, t4]).toOption.map (List.map (·.timestamp)) =
      some [10, 11, 12] ∧
    ([10, 11, 12] : List Int).max? = some 12 ∧ (12 : Int) ≠ 13 := by
  have hfil : filter_outliers ([t1, t2, t3, t4].map normalize_price)
      [t1, t2, t3, t4] = .ok [t1, t2, t3] := by
    rw [eval_norm4]
    exact eval_filter4
  have hok : aggregate_prices [t1, t2, t3, t4] "T" = .ok aggOut4 :=
    (aggregate_ok_iff [t1, t2, t3, t4] "T" aggOut4).mpr
      ⟨[t1, t2, t3], specConsensus [t1, t2, t3], by simp, hfil,
        calculate_consensus_eq_spec (by simp) (by decide), rfl⟩
  refine ⟨?_, ?_, by decide, by decide⟩
  · rw [hok]
    simp [Except.toOption]
    decide
  · rw [hfil]
    simp [Except.toOption]
    decide

/-! Claim C1: the consensus formula and the output rounding. -/

/-- C1 (amended): for every successful aggregation over positive-price
readings, the output has `expo = -8` and its price is the consensus
`0.5·median + 0.3·confidenceWeighted + 0.2·uniformMean` of the outlier-filter
survivors scaled by `10^8` and TRUNCATED toward zero by the `as i64` cast
(saturating at the `i64` bounds), not rounded to the nearest integer. -/
theorem c1_consensus_formula (prices S' : List PriceData) (sym : String)
    (out : PriceData) (hpos : ∀ p ∈ prices, 0 < p.price)
    (hf : filter_outliers (prices.map normalize_price) prices = .ok S')
    (hok : aggregate_prices prices sym = .ok out) :
    out.expo = -8 ∧
    out.price = f64AsI64 (specConsensus S' * (10 : ℚ) ^ (8 : Nat)) := by
  obtain ⟨S0, c, hlen, hf0, hc, hout⟩ := (aggregate_ok_iff _ _ _).mp hok
  rw [hf] at hf0
  cases hf0
  have hne : prices ≠ [] := by
    intro h
    subst h
    simp at hlen
  have hS'ne : S' ≠ [] := filter_outliers_ne_nil hne hf
  have hS'pos : ∀ p ∈ S', 0 < p.price :=
    fun p hp => hpos p (filter_outliers_subset hf p hp)
  have hc' := calculate_consensus_eq_spec hS'ne hS'pos
  rw [hc] at hc'
  cases hc'
  rw [hout]
  exact ⟨rfl, rfl⟩

/-- C1 witness: the singleton input `[t1]` survives the filter unchanged
and the output price is the truncated scaled consensus. -/
theorem c1_consensus_formula_witness :
    aggregate_prices [t1] "T" = .ok aggOut1 ∧
    aggOut1.expo = -8 ∧
    aggOut1.price = f64AsI64 (specConsensus [t1] * (10 : ℚ) ^ (8 : Nat)) := by
  have hok : aggregate_prices [t1] "T" = .ok aggOut1 :=
    (aggregate_ok_iff [t1] "T" aggOut1).mpr
      ⟨[t1], specConsensus [t1], by simp, rfl,
        calculate_consensus_eq_spec (by simp) (by decide), rfl⟩
  exact ⟨hok, c1_consensus_formula [t1] [t1] "T" aggOut1 (by decide) rfl hok⟩

/-- C1 counterexample: for the singleton survivor set `[rc1]` the claimed
rounding gives `round(1.5) = 2` while the code truncates to `1`. -/
theorem c1_counterexample :
    filter_outliers ([rc1].map normalize_price) [rc1] = .ok [rc1] ∧
    (aggregate_prices [rc1] "Y").toOption.map (·.price) = some 1 ∧
    ratRound (specConsensus [rc1] * (10 : ℚ) ^ (8 : Nat)) = 2 := by
  have hspec : specConsensus [rc1] = (15 : ℚ) * pow10 (-9) := by
    rw [specConsensus_singleton (by decide), normalize_price_eq]
    rfl
  have hok : aggregate_prices [rc1] "Y" = .ok
      { price := f64AsI64 (specConsensus [rc1] * (10 : ℚ) ^ (8 : Nat))
        confidence := calculate_confidence [rc1]
        expo := -8
        timestamp := latest_timestamp [rc1]
        source := .aggregated
        symbol := "Y" } :=
    (aggregate_ok_iff [rc1] "Y" _).mpr
      ⟨[rc1], specConsensus [rc1], by simp, rfl,
        calculate_consensus_eq_spec (by simp) (by decide), rfl⟩
  refine ⟨rfl, ?_, ?_⟩
  · rw [hok]
    simp only [Except.toOption, Option.map_some']
    rw [hspec, pow10_neg9]
    norm_num [f64AsI64, ratTrunc]
  · rw [hspec, pow10_neg9]
    norm_num [ratRound]

/-! Claim C8: singleton aggregation. -/

/-- C8 (amended): a singleton positive-price input aggregates successfully
into a reading with `expo = -8`, the input timestamp and source
`AGGREGATED`, whose price is `input.price × 10^(input.expo) × 10^8`
TRUNCATED toward zero by the `as i64` cast, not rounded. -/
theorem c8_singleton_rescaling (r : PriceData) (sym : String)
    (hpos : 0 < r.price) :
    ∃ out, aggregate_prices [r] sym = .ok out ∧
      out.price = f64AsI64 ((r.price : ℚ) * pow10 r.expo * (10 : ℚ) ^ (8 : Nat)) ∧
      out.expo = -8 ∧ out.timestamp = r.timestamp ∧
      out.source = .aggregated ∧ out.symbol = sym := by
  have hok : aggregate_prices [r] sym = .ok
      { price := f64AsI64 (specConsensus [r] * (10 : ℚ) ^ (8 : Nat))
        confidence := calculate_confidence [r]
        expo := -8
        timestamp := latest_timestamp [r]
        source := .aggregated
        symbol := sym } :=
    (aggregate_ok_iff [r] sym _).mpr
      ⟨[r], specConsensus [r], by simp, rfl,
        calculate_consensus_eq_spec (by simp) (by simpa using hpos), rfl⟩
  refine ⟨_, hok, ?_, rfl, rfl, rfl, rfl⟩
  show f64AsI64 (specConsensus [r] * (10 : ℚ) ^ (8 : Nat)) = _
  rw [specConsensus_singleton hpos, normalize_price_eq]

/-- C8 witness: the singleton `[rc8]` aggregates and its output price is
the truncated rescaled input. -/
theorem c8_singleton_rescaling_witness :
    (0 : Int) < rc8.price ∧
    (aggregate_prices [rc8] "X").toOption.map (·.price) =
      some (f64AsI64 ((rc8.price : ℚ) * pow10 rc8.expo * (10 : ℚ) ^ (8 : Nat))) := by
  obtain ⟨out, hok, hp, -⟩ := c8_singleton_rescaling rc8 "X" (by decide)
  refine ⟨by decide, ?_⟩
  rw [hok]
  simp only [Except.toOption, Option.map_some']
  rw [hp]

/-- C8 counterexample: for the singleton `[rc8]` the rescaled value is
`2.5`; the claimed rounding gives `3` while the code truncates to `2`. -/
theorem c8_counterexample :
    (aggregate_prices [rc8] "X").toOption.map (·.price) = some 2 ∧
    ratRound ((rc8.price : ℚ) * pow10 rc8.expo * (10 : ℚ) ^ (8 : Nat)) = 3 := by
  obtain ⟨out, hok, hp, -⟩ := c8_singleton_rescaling rc8 "X" (by decide)
  have hval : (rc8.price : ℚ) * pow10 rc8.expo = (25 : ℚ) * pow10 (-9) := rfl
  constructor
  · rw [hok]
    simp only [Except.toOption, Option.map_some']
    rw [hp, hval, pow10_neg9]
    norm_num [f64AsI64, ratTrunc]
  · rw [hval, pow10_neg9]
    norm_num [ratRound]

end Oracle
